import Mathlib

/-!
# Verification of the polar heart-rate recorder

A shallow embedding of `src/polar.py`: the binary heart-rate frame decoder
(`hr_data_conv`), the session-level file effects of `record_from_device`, the
scan-gate interleaving semantics, the streaming/cancellation lifecycle and the
`record`/`main` orchestration, together with theorems settling the spec claims.
-/

namespace Polar

/-! ## Frame decoder (`hr_data_conv`, src/polar.py lines 53-98)

Payloads are byte strings; we model them as `List Nat` (Python `bytes`
indexing yields integers).  An out-of-range index raises `IndexError` in
Python; we model every fallible index with `getElem?`, so a decode that would
raise returns `none`. -/

/-- Decoded result of one notification, the triple `(hr, ee, ibis)` returned
by `hr_data_conv`. -/
structure HeartRateFrame where
  hr : Nat
  ee : Option Nat
  ibis : List Nat
  deriving DecidableEq, Repr

/-- The interval conversion `math.ceil(ibi / 1024 * 1000)` from line 95.
In Python this is IEEE double arithmetic, but it is exact there: `ibi / 1024`
is exact for `ibi < 2^53` (power-of-two denominator), and the true product
`ibi * 1000 / 1024` has a numerator below `2^53` over a power-of-two
denominator, hence is itself a representable double, so the multiplication
rounds to the exact value.  The composite therefore equals the exact ceiling
`⌈ibi * 1000 / 1024⌉`, which over `Nat` is `(ibi * 1000 + 1023) / 1024`. -/
def ibiToMs (raw : Nat) : Nat := (raw * 1000 + 1023) / 1024

/-- The loop `for i in range(first_rr_byte, len(data), 2)` of lines 88-96,
expressed on the byte suffix `data[first_rr_byte:]`: each iteration reads the
bytes at `i` and `i + 1` (the latter may be out of range, raising
`IndexError`, modelled as `none`), combines them little-endian, converts with
`ibiToMs`, and continues at `i + 2`; the loop body never runs once `i` has
reached the payload length. -/
def readIbis : List Nat → Option (List Nat)
  | [] => some []
  | [_] => none
  | lo :: hi :: rest =>
    match readIbis rest with
    | none => none
    | some ibis => some (ibiToMs ((hi <<< 8) ||| lo) :: ibis)

/-- `hr_data_conv` of src/polar.py lines 53-98.  `byte0` is the flags byte;
bit 0 selects the 8-bit versus 16-bit heart-rate encoding, bit 3 the presence
of the energy-expenditure field; bit 4 is read into `rr_interval` in the
source but never used, so it is omitted here.  Any out-of-range byte access
(`IndexError` in the source) yields `none`. -/
def hr_data_conv (data : List Nat) : Option HeartRateFrame :=
  match data[0]? with
  | none => none
  | some byte0 =>
    -- uint8_format = (byte0 & 1) == 0; energy_expenditure = ((byte0 >> 3) & 1) == 1
    let hrPart : Option (Nat × Nat) :=
      if byte0 &&& 1 = 0 then
        match data[1]? with
        | some h => some (h, 2)
        | none => none
      else
        match data[1]?, data[2]? with
        | some lo, some hi => some ((hi <<< 8) ||| lo, 3)
        | _, _ => none
    match hrPart with
    | none => none
    | some (hr, first0) =>
      let eePart : Option (Option Nat × Nat) :=
        if (byte0 >>> 3) &&& 1 = 1 then
          match data[first0]?, data[first0 + 1]? with
          | some lo, some hi => some (some ((hi <<< 8) ||| lo), first0 + 2)
          | _, _ => none
        else some (none, first0)
      match eePart with
      | none => none
      | some (ee, first_rr_byte) =>
        match readIbis (data.drop first_rr_byte) with
        | none => none
        | some ibis => some ⟨hr, ee, ibis⟩

/-! ### Statement vocabulary for the decoder claims -/

/-- The flags byte of a payload (byte 0). -/
def flagsOf (data : List Nat) : Nat := data.getD 0 0

/-- Index one past the heart-rate field: 2 in the 8-bit format, 3 in the
16-bit format (`first_rr_byte` before the energy-expenditure adjustment). -/
def hrEnd (data : List Nat) : Nat := if flagsOf data &&& 1 = 0 then 2 else 3

/-- Index of the first interval byte: `hrEnd` plus 2 when flags bit 3
announces the energy-expenditure field (`first_rr_byte` after line 84). -/
def eeEnd (data : List Nat) : Nat :=
  hrEnd data + (if (flagsOf data >>> 3) &&& 1 = 1 then 2 else 0)

/-- The heart-rate value the flags select: byte 1, or the little-endian
combination of bytes 1-2. -/
def hrVal (data : List Nat) : Nat :=
  if flagsOf data &&& 1 = 0 then data.getD 1 0
  else (data.getD 2 0 <<< 8) ||| data.getD 1 0

/-- The energy-expenditure field the flags select: the 2-byte little-endian
field immediately following the heart-rate field when bit 3 is set, absent
otherwise. -/
def eeVal (data : List Nat) : Option Nat :=
  if (flagsOf data >>> 3) &&& 1 = 1 then
    some ((data.getD (hrEnd data + 1) 0 <<< 8) ||| data.getD (hrEnd data) 0)
  else none

/-- Little-endian 16-bit words of consecutive byte pairs; a trailing odd byte
is dropped (`readIbis` instead fails on it, which is the content of C3). -/
def lePairs : List Nat → List Nat
  | [] => []
  | [_] => []
  | lo :: hi :: rest => ((hi <<< 8) ||| lo) :: lePairs rest

/-! ### Decoder lemmas -/

theorem readIbis_eq : ∀ l : List Nat,
    readIbis l =
      if 2 ∣ l.length then some ((lePairs l).map ibiToMs) else none
  | [] => by simp [readIbis, lePairs]
  | [x] => by
    rw [readIbis, if_neg (by simp)]
  | lo :: hi :: rest => by
    rw [readIbis, readIbis_eq rest]
    by_cases h : 2 ∣ rest.length
    · rw [if_pos h, if_pos (by simp only [List.length_cons]; omega)]
      simp [lePairs]
    · rw [if_neg h, if_neg (by simp only [List.length_cons]; omega)]

/-- Complete characterization of the decoder: it succeeds exactly when the
payload is at least as long as the flags imply and the trailing interval
bytes pair up evenly, and then the frame consists of the flags-selected
heart rate, the flags-selected energy expenditure, and the converted
little-endian interval pairs of all remaining bytes. -/
theorem hr_data_conv_characterization (data : List Nat) :
    hr_data_conv data =
      if eeEnd data ≤ data.length ∧ 2 ∣ (data.length - eeEnd data) then
        some ⟨hrVal data, eeVal data,
          (lePairs (data.drop (eeEnd data))).map ibiToMs⟩
      else none := by
  match data with
  | [] => simp [hr_data_conv, eeEnd, hrEnd, flagsOf]
  | b0 :: rest =>
    by_cases hb0 : b0 % 2 = 0
    · by_cases hb3 : b0 >>> 3 % 2 = 1
      · -- 8-bit heart rate, energy expenditure present: needs indices 1-3
        have hEnd : eeEnd (b0 :: rest) = 4 := by
          simp [eeEnd, hrEnd, flagsOf, Nat.and_one_is_mod, hb0, hb3]
        match rest with
        | [] =>
          rw [hEnd]
          simp [hr_data_conv, Nat.and_one_is_mod, hb0, hb3]
        | [h1] =>
          rw [hEnd]
          simp [hr_data_conv, Nat.and_one_is_mod, hb0, hb3]
        | [h1, h2] =>
          rw [hEnd]
          simp [hr_data_conv, Nat.and_one_is_mod, hb0, hb3]
        | h1 :: h2 :: h3 :: rest3 =>
          rw [hEnd]
          by_cases hdvd : 2 ∣ rest3.length
          · have hread : readIbis rest3 = some ((lePairs rest3).map ibiToMs) := by
              rw [readIbis_eq, if_pos hdvd]
            rw [if_pos (by simp only [List.length_cons]; omega)]
            simp [hr_data_conv, hread, Nat.and_one_is_mod, hb0, hb3,
              hrVal, eeVal, hrEnd, flagsOf]
          · have hread : readIbis rest3 = none := by
              rw [readIbis_eq, if_neg hdvd]
            rw [if_neg (by simp only [List.length_cons]; omega)]
            simp [hr_data_conv, hread, Nat.and_one_is_mod, hb0, hb3]
      · -- 8-bit heart rate, no energy expenditure: needs index 1
        have hEnd : eeEnd (b0 :: rest) = 2 := by
          simp [eeEnd, hrEnd, flagsOf, Nat.and_one_is_mod, hb0, hb3]
        match rest with
        | [] =>
          rw [hEnd]
          simp [hr_data_conv, Nat.and_one_is_mod, hb0, hb3]
        | h1 :: rest1 =>
          rw [hEnd]
          by_cases hdvd : 2 ∣ rest1.length
          · have hread : readIbis rest1 = some ((lePairs rest1).map ibiToMs) := by
              rw [readIbis_eq, if_pos hdvd]
            rw [if_pos (by simp only [List.length_cons]; omega)]
            simp [hr_data_conv, hread, Nat.and_one_is_mod, hb0, hb3,
              hrVal, eeVal, hrEnd, flagsOf]
          · have hread : readIbis rest1 = none := by
              rw [readIbis_eq, if_neg hdvd]
            rw [if_neg (by simp only [List.length_cons]; omega)]
            simp [hr_data_conv, hread, Nat.and_one_is_mod, hb0, hb3]
    · by_cases hb3 : b0 >>> 3 % 2 = 1
      · -- 16-bit heart rate, energy expenditure present: needs indices 1-4
        have hEnd : eeEnd (b0 :: rest) = 5 := by
          simp [eeEnd, hrEnd, flagsOf, Nat.and_one_is_mod, hb0, hb3]
        match rest with
        | [] =>
          rw [hEnd]
          simp [hr_data_conv, Nat.and_one_is_mod, hb0, hb3]
        | [h1] =>
          rw [hEnd]
          simp [hr_data_conv, Nat.and_one_is_mod, hb0, hb3]
        | [h1, h2] =>
          rw [hEnd]
          simp [hr_data_conv, Nat.and_one_is_mod, hb0, hb3]
        | [h1, h2, h3] =>
          rw [hEnd]
          simp [hr_data_conv, Nat.and_one_is_mod, hb0, hb3]
        | h1 :: h2 :: h3 :: h4 :: rest4 =>
          rw [hEnd]
          by_cases hdvd : 2 ∣ rest4.length
          · have hread : readIbis rest4 = some ((lePairs rest4).map ibiToMs) := by
              rw [readIbis_eq, if_pos hdvd]
            rw [if_pos (by simp only [List.length_cons]; omega)]
            simp [hr_data_conv, hread, Nat.and_one_is_mod, hb0, hb3,
              hrVal, eeVal, hrEnd, flagsOf]
          · have hread : readIbis rest4 = none := by
              rw [readIbis_eq, if_neg hdvd]
            rw [if_neg (by simp only [List.length_cons]; omega)]
            simp [hr_data_conv, hread, Nat.and_one_is_mod, hb0, hb3]
      · -- 16-bit heart rate, no energy expenditure: needs indices 1-2
        have hEnd : eeEnd (b0 :: rest) = 3 := by
          simp [eeEnd, hrEnd, flagsOf, Nat.and_one_is_mod, hb0, hb3]
        match rest with
        | [] =>
          rw [hEnd]
          simp [hr_data_conv, Nat.and_one_is_mod, hb0, hb3]
        | [h1] =>
          rw [hEnd]
          simp [hr_data_conv, Nat.and_one_is_mod, hb0, hb3]
        | h1 :: h2 :: rest2 =>
          rw [hEnd]
          by_cases hdvd : 2 ∣ rest2.length
          · have hread : readIbis rest2 = some ((lePairs rest2).map ibiToMs) := by
              rw [readIbis_eq, if_pos hdvd]
            rw [if_pos (by simp only [List.length_cons]; omega)]
            simp [hr_data_conv, hread, Nat.and_one_is_mod, hb0, hb3,
              hrVal, eeVal, hrEnd, flagsOf]
          · have hread : readIbis rest2 = none := by
              rw [readIbis_eq, if_neg hdvd]
            rw [if_neg (by simp only [List.length_cons]; omega)]
            simp [hr_data_conv, hread, Nat.and_one_is_mod, hb0, hb3]

theorem lePairs_length : ∀ l : List Nat, (lePairs l).length = l.length / 2
  | [] => rfl
  | [_] => by simp [lePairs]
  | _ :: _ :: rest => by
    simp only [lePairs, List.length_cons, lePairs_length rest]
    omega

/-- `ibiToMs` is the exact ceiling of `raw * 1000 / 1024`. -/
theorem ibiToMs_eq_ceil (raw : Nat) :
    (ibiToMs raw : ℤ) = ⌈(raw * 1000 : ℚ) / 1024⌉ := by
  have h1 : raw * 1000 ≤ 1024 * ibiToMs raw := by
    unfold ibiToMs
    omega
  have h2 : 1024 * ibiToMs raw < raw * 1000 + 1024 := by
    unfold ibiToMs
    omega
  symm
  rw [Int.ceil_eq_iff]
  constructor
  · rw [lt_div_iff₀ (by norm_num : (0 : ℚ) < 1024)]
    push_cast
    have : ((raw : ℚ) * 1000 : ℚ) + 1024 > 1024 * ibiToMs raw := by
      exact_mod_cast h2
    linarith
  · rw [div_le_iff₀ (by norm_num : (0 : ℚ) < 1024)]
    push_cast
    have : ((raw : ℚ) * 1000 : ℚ) ≤ 1024 * ibiToMs raw := by
      exact_mod_cast h1
    linarith

/-! ## Claims C1-C3: the frame decoder -/

/-- C1: for every payload the decoder accepts, the heart rate is selected by
bit 0 of the flags byte — byte 1 in the 8-bit format, the little-endian
combination of bytes 1-2 in the 16-bit format — and the energy expenditure is
the 2-byte little-endian field immediately following the heart-rate field
exactly when flags bit 3 is set, `none` otherwise; moreover a two-byte
payload `[flags, h0]` in the 8-bit format without energy expenditure decodes
to heart rate `h0`, no energy expenditure, and an empty interval sequence. -/
theorem decode_selects_fields (data : List Nat) (hr : Nat) (ee : Option Nat)
    (ibis : List Nat) (h : hr_data_conv data = some ⟨hr, ee, ibis⟩)
    (flags h0 : Nat) (hf0 : flags &&& 1 = 0) (hf3 : (flags >>> 3) &&& 1 = 0) :
    (flagsOf data &&& 1 = 0 → hr = data.getD 1 0) ∧
    (flagsOf data &&& 1 = 1 →
      hr = (data.getD 2 0 <<< 8) ||| data.getD 1 0) ∧
    ((flagsOf data >>> 3) &&& 1 = 1 →
      ee = some ((data.getD (hrEnd data + 1) 0 <<< 8) |||
        data.getD (hrEnd data) 0)) ∧
    ((flagsOf data >>> 3) &&& 1 = 0 → ee = none) ∧
    hr_data_conv [flags, h0] = some ⟨h0, none, []⟩ := by
  rw [hr_data_conv_characterization data] at h
  by_cases hc : eeEnd data ≤ data.length ∧ 2 ∣ (data.length - eeEnd data)
  case neg =>
    rw [if_neg hc] at h
    exact absurd h (by simp)
  rw [if_pos hc] at h
  simp only [Option.some.injEq, HeartRateFrame.mk.injEq] at h
  obtain ⟨hhr, hee, _⟩ := h
  refine ⟨?_, ?_, ?_, ?_, ?_⟩
  · intro hb
    rw [← hhr, hrVal, if_pos hb]
  · intro hb
    rw [← hhr, hrVal, if_neg (by rw [hb]; exact one_ne_zero)]
  · intro hb
    rw [← hee, eeVal, if_pos hb]
  · intro hb
    rw [← hee, eeVal, if_neg (by rw [hb]; exact zero_ne_one)]
  · have hEnd : eeEnd [flags, h0] = 2 := by
      simp [eeEnd, hrEnd, flagsOf, hf0, hf3]
    rw [hr_data_conv_characterization [flags, h0], hEnd]
    rw [if_pos (by constructor <;> simp)]
    simp [hrVal, eeVal, flagsOf, hf0, hf3, lePairs]

/-- Closed-form instance of C1 on the payload `[9, 70, 1, 2, 3]` (16-bit
heart rate 326, energy expenditure 770) and the minimal payload `[0, 70]`. -/
theorem decode_selects_fields_witness :
    hr_data_conv [0, 70] = some ⟨70, none, []⟩ :=
  (decode_selects_fields [9, 70, 1, 2, 3] 326 (some 770) [] (by decide)
    0 70 (by decide) (by decide)).2.2.2.2

/-- C2: every payload the decoder accepts has all bytes after the heart-rate
(and energy-expenditure) field consumed as 2-byte little-endian inter-beat
intervals — their count is exactly half the remaining bytes, with no gating
on flags bit 4 — and each raw interval converts to milliseconds by exact
ceiling: `ibiToMs raw = ⌈raw * 1000 / 1024⌉`, in particular raw 1024 gives
1000 ms, raw 512 gives 500 ms and raw 1 gives 1 ms. -/
theorem decode_intervals_ceiling (data : List Nat) (hr : Nat)
    (ee : Option Nat) (ibis : List Nat)
    (h : hr_data_conv data = some ⟨hr, ee, ibis⟩) (raw : Nat) :
    ibis = (lePairs (data.drop (eeEnd data))).map ibiToMs ∧
    2 * ibis.length + eeEnd data = data.length ∧
    (ibiToMs raw : ℤ) = ⌈(raw * 1000 : ℚ) / 1024⌉ ∧
    ibiToMs 1024 = 1000 ∧ ibiToMs 512 = 500 ∧ ibiToMs 1 = 1 := by
  rw [hr_data_conv_characterization data] at h
  by_cases hc : eeEnd data ≤ data.length ∧ 2 ∣ (data.length - eeEnd data)
  case neg =>
    rw [if_neg hc] at h
    exact absurd h (by simp)
  rw [if_pos hc] at h
  simp only [Option.some.injEq, HeartRateFrame.mk.injEq] at h
  obtain ⟨_, _, hibis⟩ := h
  obtain ⟨hle, hdvd⟩ := hc
  refine ⟨hibis.symm, ?_, ibiToMs_eq_ceil raw, by decide, by decide, by decide⟩
  have hlen : ibis.length = (data.length - eeEnd data) / 2 := by
    rw [← hibis, List.length_map, lePairs_length, List.length_drop]
  omega

/-- Closed-form instance of C2 on the payload `[16, 70, 0, 4, 0, 2]`
(flags bit 4 set, heart rate 70, two intervals 1024 and 512). -/
theorem decode_intervals_ceiling_witness :
    [1000, 500] = (lePairs ([16, 70, 0, 4, 0, 2].drop
      (eeEnd [16, 70, 0, 4, 0, 2]))).map ibiToMs :=
  (decode_intervals_ceiling [16, 70, 0, 4, 0, 2] 70 none [1000, 500]
    (by decide) 1).1

/-- C3: a payload shorter than its flags byte implies, or whose trailing
bytes end in a dangling odd byte that cannot form a 16-bit interval, is
rejected by the decoder (the out-of-range read surfaces as a decode error,
never as a silently truncated frame). -/
theorem decode_rejects_short_payloads (data : List Nat)
    (h : data.length < eeEnd data ∨ ¬ 2 ∣ (data.length - eeEnd data)) :
    hr_data_conv data = none := by
  rw [hr_data_conv_characterization]
  rw [if_neg]
  intro ⟨h1, h2⟩
  rcases h with h | h
  · omega
  · exact h h2

/-- Closed-form instances of C3: the 16-bit format flag with only two total
bytes (missing high heart-rate byte), and an 8-bit frame with one dangling
trailing interval byte. -/
theorem decode_rejects_short_payloads_witness :
    hr_data_conv [1, 70] = none ∧ hr_data_conv [0, 70, 99] = none :=
  ⟨decode_rejects_short_payloads [1, 70] (by decide),
   decode_rejects_short_payloads [0, 70, 99] (by decide)⟩

/-! ## Session and orchestrator model (src/polar.py lines 100-163, 202-251)

`record_from_device` (lines 100-145) wraps its whole body in
`try ... except Exception: logging.exception("error with %s", ...)`, so no
error ever escapes the coroutine.  Its externally visible control flow is a
function of the session's environment: whether
`BleakScanner.find_device_by_name` returns a device (lines 105-110), whether
entering the `BleakClient` context succeeds (line 115), and whether the
open/stream phase raises.  `record` (lines 147-163) runs
`asyncio.gather` over one such coroutine per `(subject, device)` pair; since
no coroutine raises, `gather` returns only after every session has reached a
terminal state, one outcome per session. -/

/-- External environment of a single session. -/
structure SessionEnv where
  deviceFound : Bool
  connectOk : Bool
  streamOk : Bool
  deriving DecidableEq, Repr

/-- Terminal state of one `record_from_device` coroutine. -/
inductive SessionTerm where
  /-- Early `return` at line 110 after `logging.error("%s not found", ...)`:
  the spec's `DeviceNotFound`, confined to this session. -/
  | notFoundLogged
  /-- The blanket `except Exception` of lines 144-145 caught and logged an
  error (`ConnectionError`, an I/O failure, ...), ending this session. -/
  | errorLogged
  /-- Normal completion of the body. -/
  | completed
  deriving DecidableEq, Repr

/-- Terminal state of `record_from_device` as a function of its own
environment (lines 100-145). -/
def record_from_device_term (e : SessionEnv) : SessionTerm :=
  if !e.deviceFound then .notFoundLogged
  else if !e.connectOk then .errorLogged
  else if !e.streamOk then .errorLogged
  else .completed

/-- The outcome list `asyncio.gather` (lines 155-163) waits for: one
terminal state per launched session, each determined by its own
environment alone. -/
def record_terms (envs : List SessionEnv) : List SessionTerm :=
  envs.map record_from_device_term

/-- Exit status of `main` for the `record` subcommand (lines 231-251):
`asyncio.run(record(args))` completes because no session coroutine raises,
the gathered outcomes are discarded, and `main` unconditionally executes
`return 0` at line 251. -/
def mainRecordExit (envs : List SessionEnv) : Nat :=
  match record_terms envs with
  | _ => 0

/-- The statically configured device table of lines 13-21: the
insertion-ordered keys of the `devices` dict (its address values are empty
and unused by `record`). -/
def devices : List String :=
  ["Polar OH1 85E77F28", "Polar OH1 6EFADA2E", "Polar OH1 84BF0B2D",
   "Polar OH1 6E85CB22", "Polar OH1 D025F429", "Polar OH1 85EA7F2B",
   "Polar OH1 84BF1A2F"]

/-- The session launch list of `record` (lines 155-163): one
`record_from_device` call per element of `zip(subjects, devices)`. -/
def recordSessions (subjects : List String) : List (String × String) :=
  subjects.zip devices

/-- One row of a session's CSV destination: the header written by
`writer.writeheader()` (line 120), or one sample row written by the
`hr_data_dump` callback (lines 125-130). -/
inductive Row where
  | header
  | sample (hr : Nat)
  deriving DecidableEq, Repr

/-- The effect of one `record_from_device` call on its own destination file
(`none` models a file that does not exist).  The device-not-found early
return (line 110) and a connect failure (line 115) occur before
`open(csv_file_name, 'a')` at line 118, leaving the file untouched;
otherwise the file is opened in append mode — created if missing, existing
rows preserved, never truncated — a header row is written unconditionally
(line 120), and one sample row is appended per notification delivered while
streaming. -/
def record_from_device_file (e : SessionEnv) (hrs : List Nat)
    (file : Option (List Row)) : Option (List Row) :=
  if !e.deviceFound then file
  else if !e.connectOk then file
  else some (file.getD [] ++ [Row.header] ++ hrs.map Row.sample)

/-! ## Claims C4, C5, C7, C9, C10 -/

/-- C4 counterexample: a run whose only session fails (device not found)
exits with the same code as an all-successful run — the exit code is the
same value in all cases, so it does not reflect session failures. -/
theorem record_exit_code_ignores_failures_counterexample :
    record_from_device_term ⟨false, true, true⟩ = .notFoundLogged ∧
    record_from_device_term ⟨true, true, true⟩ = .completed ∧
    mainRecordExit [⟨false, true, true⟩] = 0 ∧
    mainRecordExit [⟨true, true, true⟩] = 0 ∧
    mainRecordExit [⟨false, true, true⟩] = mainRecordExit [⟨true, true, true⟩] := by
  decide

/-- C4 amended: the `record` command's process exit code is 0 on every run,
whether or not any session failed. -/
theorem record_exit_code_always_zero (envs : List SessionEnv) :
    mainRecordExit envs = 0 := rfl

/-- C5: every session reaches a terminal state that is a function of its own
environment alone — a `DeviceNotFound` early return or a caught-and-logged
exception included — the orchestrator collects one terminal state per
launched session, and replacing one session's environment (for instance by a
failing one) leaves every sibling session's terminal state unchanged. -/
theorem session_failures_isolated (envs envs2 : List SessionEnv) (i : Nat)
    (h : ∀ j : Nat, j ≠ i → envs[j]? = envs2[j]?) :
    (record_terms envs).length = envs.length ∧
    (∀ j : Nat, (record_terms envs)[j]? = (envs[j]?).map record_from_device_term) ∧
    (∀ e : SessionEnv, e.deviceFound = false →
      record_from_device_term e = .notFoundLogged) ∧
    (∀ e : SessionEnv, e.deviceFound = true → e.connectOk = false →
      record_from_device_term e = .errorLogged) ∧
    (∀ j, j ≠ i → (record_terms envs)[j]? = (record_terms envs2)[j]?) := by
  refine ⟨by simp [record_terms], fun j => by simp [record_terms], ?_, ?_, ?_⟩
  · intro e he
    simp [record_from_device_term, he]
  · intro e h1 h2
    simp [record_from_device_term, h1, h2]
  · intro j hj
    simp only [record_terms, List.getElem?_map, h j hj]

/-- Closed-form instance of C5: with session 0 failing (device not found)
and session 1 healthy, session 1's terminal state matches the all-healthy
run's. -/
theorem session_failures_isolated_witness :
    (record_terms [⟨false, true, true⟩, ⟨true, true, true⟩])[1]? =
      (record_terms [⟨true, true, true⟩, ⟨true, true, true⟩])[1]? :=
  (session_failures_isolated [⟨false, true, true⟩, ⟨true, true, true⟩]
      [⟨true, true, true⟩, ⟨true, true, true⟩] 0
      (fun j hj => by
        match j with
        | 0 => exact absurd rfl hj
        | 1 => rfl
        | n + 2 => rfl)).2.2.2.2 1 one_ne_zero

/-- C7: whenever a session reaches its sink open (device found, connection
established), the destination is opened with create-or-append semantics —
prior contents remain an unmodified prefix — and a fresh header row is
written unconditionally, so a second session against the same destination
yields two header rows interleaved with the two sessions' sample rows. -/
theorem sink_appends_fresh_header_each_open (e : SessionEnv)
    (hrs1 hrs2 : List Nat) (prior : List Row)
    (hfound : e.deviceFound = true) (hconn : e.connectOk = true) :
    record_from_device_file e hrs1 (some prior)
      = some (prior ++ [Row.header] ++ hrs1.map Row.sample) ∧
    record_from_device_file e hrs2 (record_from_device_file e hrs1 (some prior))
      = some (prior ++ [Row.header] ++ hrs1.map Row.sample
          ++ [Row.header] ++ hrs2.map Row.sample) ∧
    record_from_device_file e hrs2 none
      = some ([Row.header] ++ hrs2.map Row.sample) := by
  simp [record_from_device_file, hfound, hconn]

/-- Closed-form instance of C7: a rerun over an existing file with one
header and one sample appends a second header followed by the new sample. -/
theorem sink_appends_fresh_header_each_open_witness :
    record_from_device_file ⟨true, true, true⟩ [71]
        (record_from_device_file ⟨true, true, true⟩ [70] (some []))
      = some ([] ++ [Row.header] ++ [Row.sample 70]
          ++ [Row.header] ++ [Row.sample 71]) :=
  (sink_appends_fresh_header_each_open ⟨true, true, true⟩ [70] [71] []
    rfl rfl).2.1

/-- C9: `record` launches exactly one session per positional pair of
`zip(subjects, devices)` — that is `min subjects.length devices.length`
sessions against the 7 statically configured device names — with the i-th
session pairing the i-th subject with the i-th configured device; subjects
or devices beyond the shorter list get no session at all. -/
theorem record_pairs_positionally (subjects : List String) (i : Nat)
    (hi : i < min subjects.length devices.length) :
    (recordSessions subjects).length = min subjects.length devices.length ∧
    devices.length = 7 ∧
    (recordSessions subjects)[i]? =
      some (subjects.getD i "", devices.getD i "") ∧
    (∀ j, (recordSessions subjects).length ≤ j →
      (recordSessions subjects)[j]? = none) := by
  refine ⟨by simp [recordSessions], rfl, ?_, ?_⟩
  · have h1 : i < subjects.length := lt_of_lt_of_le hi (min_le_left _ _)
    have h2 : i < devices.length := lt_of_lt_of_le hi (min_le_right _ _)
    rw [recordSessions, List.getElem?_zip_eq_some]
    constructor <;>
      simp [List.getD_eq_getElem?_getD, List.getElem?_eq_getElem h1,
        List.getElem?_eq_getElem h2]
  · intro j hj
    rw [List.getElem?_eq_none_iff]
    exact hj

/-- Closed-form instance of C9: two subjects yield exactly two sessions,
positionally paired with the first two configured devices. -/
theorem record_pairs_positionally_witness :
    (recordSessions ["s1", "s2"]).length = min 2 devices.length ∧
    devices.length = 7 ∧
    (recordSessions ["s1", "s2"])[1]? =
      some ("s2", devices.getD 1 "") ∧
    (∀ j, (recordSessions ["s1", "s2"]).length ≤ j →
      (recordSessions ["s1", "s2"])[j]? = none) :=
  record_pairs_positionally ["s1", "s2"] 1 (by decide)

/-- C10: a session whose device is not found during discovery returns before
its sink is ever opened: the destination file's state — including its very
absence — is unchanged, with no header or sample row written. -/
theorem not_found_leaves_file_untouched (e : SessionEnv) (hrs : List Nat)
    (file : Option (List Row)) (h : e.deviceFound = false) :
    record_from_device_file e hrs file = file := by
  simp [record_from_device_file, h]

/-- Closed-form instance of C10: a not-found session over a non-existent
destination leaves it non-existent. -/
theorem not_found_leaves_file_untouched_witness :
    record_from_device_file ⟨false, true, true⟩ [70] none = none :=
  not_found_leaves_file_untouched ⟨false, true, true⟩ [70] none rfl

/-! ## ScanGate interleaving model (src/polar.py lines 100-118)

`record_from_device` acquires the shared `asyncio.Lock` (line 103
`async with lock:`) before `BleakScanner.find_device_by_name` (line 105),
keeps holding it while entering the `BleakClient` context (line 115), and the
`async with lock` block ends before the streaming phase starting at line 118,
releasing the lock — also on the not-found early return and on a connect
exception, since `async with` releases on every exit.  We model the
per-session control points and an interleaving small-step semantics over `n`
concurrent sessions with the lock's acquire/release discipline. -/

/-- Control points of one session with respect to the scan gate. -/
inductive Phase where
  /-- Before line 103. -/
  | start
  /-- Holding the lock, running discovery-by-name (lines 104-110). -/
  | scanning
  /-- Holding the lock, establishing the connection (lines 112-116). -/
  | connecting
  /-- Lock released, long-lived streaming phase (line 118 onwards). -/
  | streaming
  /-- Session terminated (completed, not found, or errored out). -/
  | done
  deriving DecidableEq, Repr

/-- Global state: each session's phase plus the lock holder, if any. -/
structure GateState (n : Nat) where
  phase : Fin n → Phase
  lock : Option (Fin n)

/-- Interleaving steps.  The lock can only be acquired when free; it is
released when its holder leaves the `async with lock` block — on the
found-and-connected path (line 116 end of block), on the not-found return
(line 110) and on a connect failure (exception unwinding the block). -/
inductive GateStep {n : Nat} : GateState n → GateState n → Prop where
  | acquire (s : GateState n) (i : Fin n) :
      s.phase i = .start → s.lock = none →
      GateStep s ⟨Function.update s.phase i .scanning, some i⟩
  | found (s : GateState n) (i : Fin n) :
      s.phase i = .scanning →
      GateStep s ⟨Function.update s.phase i .connecting, s.lock⟩
  | notFound (s : GateState n) (i : Fin n) :
      s.phase i = .scanning →
      GateStep s ⟨Function.update s.phase i .done, none⟩
  | connected (s : GateState n) (i : Fin n) :
      s.phase i = .connecting →
      GateStep s ⟨Function.update s.phase i .streaming, none⟩
  | connectFailed (s : GateState n) (i : Fin n) :
      s.phase i = .connecting →
      GateStep s ⟨Function.update s.phase i .done, none⟩
  | finish (s : GateState n) (i : Fin n) :
      s.phase i = .streaming →
      GateStep s ⟨Function.update s.phase i .done, s.lock⟩

/-- All sessions before line 103, lock free. -/
def gateInit (n : Nat) : GateState n := ⟨fun _ => .start, none⟩

/-- States reachable by interleaving the sessions from the initial state. -/
inductive GateReachable {n : Nat} : GateState n → Prop where
  | init : GateReachable (gateInit n)
  | step {s t : GateState n} : GateReachable s → GateStep s t → GateReachable t

/-- The discovery-plus-initial-connect phase the gate protects. -/
def inGate (p : Phase) : Prop := p = .scanning ∨ p = .connecting

/-- Gate invariant: the lock is held by exactly the sessions inside the
protected discovery/connect region. -/
theorem gate_invariant {n : Nat} {s : GateState n} (h : GateReachable s) :
    ∀ i : Fin n, s.lock = some i ↔ inGate (s.phase i) := by
  induction h with
  | init =>
    intro i
    simp [gateInit, inGate]
  | step hr hstep ih =>
    cases hstep with
    | acquire i hp hl =>
      intro k
      dsimp only
      by_cases hk : k = i
      · subst hk
        simp [Function.update_same, inGate]
      · rw [Function.update_noteq hk]
        constructor
        · intro hc
          exact absurd (Option.some.inj hc).symm hk
        · intro hg
          exact absurd ((ih k).mpr hg) (by simp [hl])
    | found i hp =>
      intro k
      dsimp only
      by_cases hk : k = i
      · subst hk
        rw [Function.update_same, ih k, hp]
        simp [inGate]
      · rw [Function.update_noteq hk]
        exact ih k
    | notFound i hp =>
      intro k
      dsimp only
      have hheld := (ih i).mpr (Or.inl hp)
      by_cases hk : k = i
      · subst hk
        simp [Function.update_same, inGate]
      · rw [Function.update_noteq hk]
        constructor
        · intro hc
          exact absurd hc (by simp)
        · intro hg
          have hlk := (ih k).mpr hg
          rw [hheld] at hlk
          exact absurd (Option.some.inj hlk).symm hk
    | connected i hp =>
      intro k
      dsimp only
      have hheld := (ih i).mpr (Or.inr hp)
      by_cases hk : k = i
      · subst hk
        simp [Function.update_same, inGate]
      · rw [Function.update_noteq hk]
        constructor
        · intro hc
          exact absurd hc (by simp)
        · intro hg
          have hlk := (ih k).mpr hg
          rw [hheld] at hlk
          exact absurd (Option.some.inj hlk).symm hk
    | connectFailed i hp =>
      intro k
      dsimp only
      have hheld := (ih i).mpr (Or.inr hp)
      by_cases hk : k = i
      · subst hk
        simp [Function.update_same, inGate]
      · rw [Function.update_noteq hk]
        constructor
        · intro hc
          exact absurd hc (by simp)
        · intro hg
          have hlk := (ih k).mpr hg
          rw [hheld] at hlk
          exact absurd (Option.some.inj hlk).symm hk
    | finish i hp =>
      intro k
      dsimp only
      by_cases hk : k = i
      · subst hk
        rw [Function.update_same, ih k, hp]
        simp [inGate]
      · rw [Function.update_noteq hk]
        exact ih k

/-- C6: in every reachable interleaving of any number of sessions, at most
one session is inside the discovery-plus-initial-connect region at any
instant, and a session that has entered its streaming phase no longer holds
the gate — it released the lock between connection establishment and
streaming. -/
theorem scan_gate_mutual_exclusion {n : Nat} {s : GateState n}
    (h : GateReachable s) :
    (∀ i j : Fin n, inGate (s.phase i) → inGate (s.phase j) → i = j) ∧
    (∀ i : Fin n, s.phase i = .streaming → s.lock ≠ some i) := by
  have inv := gate_invariant h
  constructor
  · intro i j hi hj
    have h1 := (inv i).mpr hi
    have h2 := (inv j).mpr hj
    rw [h1] at h2
    exact Option.some.inj h2
  · intro i hp hl
    have := (inv i).mp hl
    rw [hp] at this
    rcases this with hc | hc <;> exact absurd hc (by simp)

/-- A demonstration state with two sessions: session 0 has connected,
released the gate and is streaming while session 1 is inside the gate
scanning. -/
def gateDemo : GateState 2 :=
  ⟨Function.update (Function.update (Function.update (Function.update
      (fun _ => Phase.start) 0 Phase.scanning) 0 Phase.connecting)
      0 Phase.streaming) 1 Phase.scanning,
   some 1⟩

/-- The demonstration state is reachable: session 0 acquires, scans,
connects and releases; then session 1 acquires while 0 streams. -/
theorem gateDemo_reachable : GateReachable gateDemo :=
  .step (.step (.step (.step .init
    (.acquire _ 0 rfl rfl))
    (.found _ 0 (by decide)))
    (.connected _ 0 (by decide)))
    (.acquire _ 1 (by decide) rfl)

/-- Closed-form instance of C6: in the demonstration state, the streaming
session 0 does not hold the gate (session 1, scanning, does). -/
theorem scan_gate_mutual_exclusion_witness :
    gateDemo.lock ≠ some (0 : Fin 2) :=
  (scan_gate_mutual_exclusion gateDemo_reachable).2 0 (by decide)

/-! ## Streaming and cancellation (src/polar.py lines 118-145)

Once a session streams (line 132 onwards), its wait loop `while True: await
asyncio.sleep(10)` (lines 136-137) has no break or return: the only way out
is `asyncio.CancelledError`, which the session catches (`except
asyncio.CancelledError: pass`, lines 138-139) and then tears down:
`stop_notify` (line 141), then the client disconnect when the
`AsyncExitStack` unwinds — also when `stop_notify` itself raised — with any
teardown exception caught and logged by the blanket handler of lines
144-145, never re-raised.  Sample rows are appended only by the
`hr_data_dump` callback registered while streaming.  We model one session as
a small-step machine over its state and trace of events. -/

/-- Observable events of one streaming session. -/
inductive StreamEv where
  /-- The `hr_data_dump` callback appended a sample row (lines 122-130). -/
  | append (hr : Nat)
  /-- `asyncio.CancelledError` observed in the wait loop (line 138). -/
  | cancelObserved
  /-- The `stop_notify` attempt (line 141). -/
  | unsubscribe
  /-- The disconnect attempt (client context exit via the stack). -/
  | disconnect
  /-- `logging.exception` from the blanket handler for a teardown failure
  (lines 144-145). -/
  | teardownErrorLogged
  deriving DecidableEq, Repr

/-- Streaming-phase states of one session. -/
inductive StreamState where
  /-- Subscribed, inside the wait loop (lines 133-137). -/
  | streaming
  /-- Cancellation observed; `stop_notify` not yet attempted. -/
  | stoppingUnsub
  /-- `stop_notify` attempted; disconnect not yet attempted. -/
  | stoppingDisc
  /-- Session torn down and terminated. -/
  | closed
  deriving DecidableEq, Repr

/-- One step of a streaming session; a configuration is the state paired
with the trace of events so far.  Delivery of a notification appends a
sample; observing cancellation is the only step that leaves `streaming`;
teardown attempts `stop_notify` first and the disconnect second, and a
teardown failure is logged (never re-raised), still ending in `closed`. -/
inductive StreamStep :
    StreamState × List StreamEv → StreamState × List StreamEv → Prop where
  | deliver (tr : List StreamEv) (hr : Nat) :
      StreamStep (.streaming, tr) (.streaming, tr ++ [.append hr])
  | cancel (tr : List StreamEv) :
      StreamStep (.streaming, tr) (.stoppingUnsub, tr ++ [.cancelObserved])
  | unsub (tr : List StreamEv) :
      StreamStep (.stoppingUnsub, tr) (.stoppingDisc, tr ++ [.unsubscribe])
  | disc (tr : List StreamEv) :
      StreamStep (.stoppingDisc, tr) (.closed, tr ++ [.disconnect])
  | discLogged (tr : List StreamEv) :
      StreamStep (.stoppingDisc, tr)
        (.closed, tr ++ [.disconnect, .teardownErrorLogged])

/-- Multi-step reachability between session configurations. -/
inductive StreamReach :
    StreamState × List StreamEv → StreamState × List StreamEv → Prop where
  | refl (c : StreamState × List StreamEv) : StreamReach c c
  | step {a b c : StreamState × List StreamEv} :
      StreamReach a b → StreamStep b c → StreamReach a c

/-- A trace consisting solely of sample appends. -/
def allAppends (tr : List StreamEv) : Prop :=
  ∀ e ∈ tr, ∃ hr, e = StreamEv.append hr

/-- Trace-shape invariant of the streaming session: appends happen only
before the cancellation is observed, and teardown events follow in order. -/
def streamInv : StreamState × List StreamEv → Prop
  | (.streaming, tr) => allAppends tr
  | (.stoppingUnsub, tr) =>
      ∃ pre, allAppends pre ∧ tr = pre ++ [.cancelObserved]
  | (.stoppingDisc, tr) =>
      ∃ pre, allAppends pre ∧ tr = pre ++ [.cancelObserved, .unsubscribe]
  | (.closed, tr) =>
      ∃ pre, allAppends pre ∧
        (tr = pre ++ [.cancelObserved, .unsubscribe, .disconnect] ∨
         tr = pre ++ [.cancelObserved, .unsubscribe, .disconnect,
           .teardownErrorLogged])

theorem streamInv_of_reach {c : StreamState × List StreamEv}
    (h : StreamReach (.streaming, []) c) : streamInv c := by
  induction h with
  | refl =>
    intro e he
    exact absurd he (List.not_mem_nil e)
  | step hr hstep ih =>
    cases hstep with
    | deliver tr hr0 =>
      intro e he
      rcases List.mem_append.mp he with h1 | h1
      · exact ih e h1
      · exact ⟨hr0, List.mem_singleton.mp h1⟩
    | cancel tr =>
      exact ⟨tr, ih, rfl⟩
    | unsub tr =>
      obtain ⟨pre, hpre, htr⟩ := ih
      exact ⟨pre, hpre, by rw [htr, List.append_assoc]; rfl⟩
    | disc tr =>
      obtain ⟨pre, hpre, htr⟩ := ih
      exact ⟨pre, hpre, Or.inl (by rw [htr, List.append_assoc]; rfl)⟩
    | discLogged tr =>
      obtain ⟨pre, hpre, htr⟩ := ih
      exact ⟨pre, hpre, Or.inr (by rw [htr, List.append_assoc]; rfl)⟩

/-- C8: for a session in its streaming phase, (1) the only step that leaves
`streaming` is observing the external cancellation signal; (2) a session
that reached `closed` has a trace of sample appends followed by exactly
cancel-observed, then the unsubscribe attempt, then — and only then — the
disconnect attempt, possibly followed by the logged (not escalated)
teardown failure; (3) no sample append ever occurs at or after the position
of the observed cancellation; and (4) from every reachable configuration
the session can still reach `closed`. -/
theorem streaming_only_exits_by_cancellation (s : StreamState)
    (tr : List StreamEv) (h : StreamReach (.streaming, []) (s, tr)) :
    (∀ s2 tr2, StreamStep (s, tr) (s2, tr2) → s = .streaming →
      s2 ≠ .streaming → s2 = .stoppingUnsub ∧ tr2 = tr ++ [.cancelObserved]) ∧
    (s = .closed → ∃ pre, allAppends pre ∧
      (tr = pre ++ [.cancelObserved, .unsubscribe, .disconnect] ∨
       tr = pre ++ [.cancelObserved, .unsubscribe, .disconnect,
         .teardownErrorLogged])) ∧
    (∀ i j hr0 : Nat, i ≤ j → tr[i]? = some .cancelObserved →
      tr[j]? ≠ some (.append hr0)) ∧
    (∃ tr2, StreamReach (s, tr) (.closed, tr2)) := by
  have hinv := streamInv_of_reach h
  refine ⟨?_, ?_, ?_, ?_⟩
  · intro s2 tr2 hstep hs hns
    subst hs
    cases hstep with
    | deliver tr hr0 => exact absurd rfl hns
    | cancel tr => exact ⟨rfl, rfl⟩
  · intro hs
    subst hs
    exact hinv
  · -- reduce to the shape invariant in each state
    have hshape : ∃ pre suf, allAppends pre ∧ tr = pre ++ suf ∧
        (∀ hr0, StreamEv.append hr0 ∉ suf) := by
      match s with
      | .streaming =>
        exact ⟨tr, [], hinv, by simp, by simp⟩
      | .stoppingUnsub =>
        obtain ⟨pre, hpre, htr⟩ := hinv
        exact ⟨pre, _, hpre, htr, by simp⟩
      | .stoppingDisc =>
        obtain ⟨pre, hpre, htr⟩ := hinv
        exact ⟨pre, _, hpre, htr, by simp⟩
      | .closed =>
        obtain ⟨pre, hpre, htr⟩ := hinv
        rcases htr with htr | htr
        · exact ⟨pre, _, hpre, htr, by simp⟩
        · exact ⟨pre, _, hpre, htr, by simp⟩
    obtain ⟨pre, suf, hpre, htr, hsuf⟩ := hshape
    subst htr
    intro i j hr0 hij hi hj
    have hi_ge : pre.length ≤ i := by
      by_contra hlt
      push_neg at hlt
      rw [List.getElem?_append_left hlt] at hi
      obtain ⟨hr1, he⟩ := hpre _ (List.getElem?_mem hi)
      exact absurd he (by simp)
    have hj_ge : pre.length ≤ j := le_trans hi_ge hij
    rw [List.getElem?_append_right hj_ge] at hj
    exact hsuf hr0 (List.getElem?_mem hj)
  · -- a path to closed exists from every state
    match s with
    | .streaming =>
      exact ⟨_, .step (.step (.step (.refl _) (.cancel tr)) (.unsub _)) (.disc _)⟩
    | .stoppingUnsub =>
      exact ⟨_, .step (.step (.refl _) (.unsub tr)) (.disc _)⟩
    | .stoppingDisc =>
      exact ⟨_, .step (.refl _) (.disc tr)⟩
    | .closed =>
      exact ⟨tr, .refl _⟩

/-- Closed-form instance of C8: after one delivered sample, the only exit
step from streaming — a cancellation — moves the session to the stopping
state and appends exactly the observed-cancellation event. -/
theorem streaming_only_exits_by_cancellation_witness :
    StreamState.stoppingUnsub = StreamState.stoppingUnsub ∧
    [StreamEv.append 70] ++ [StreamEv.cancelObserved]
      = [StreamEv.append 70] ++ [StreamEv.cancelObserved] :=
  (streaming_only_exits_by_cancellation .streaming [StreamEv.append 70]
      (.step (.refl _) (.deliver [] 70))).1
    .stoppingUnsub ([StreamEv.append 70] ++ [StreamEv.cancelObserved])
    (.cancel [StreamEv.append 70]) rfl (by decide)

end Polar
